import Mathlib

/-!
Verification of the ai-coding-worker orchestrator.

This file embeds, as executable Lean definitions, the parts of the
repository that the verified properties talk about:

* the SSE relay parser of workflow-api/src/server.ts (streamSSE): a
  stateful reassembly buffer over a chunked byte stream, modelled over
  List Char with the structured-record parser (JSON.parse) abstracted as
  a function into Option, together with the byte-level view in which
  each Buffer chunk is UTF-8-decoded in isolation (Buffer.toString) and
  the per-frame loop with its console channel made explicit;
* the /api/workflow Express handler of the same file, modelled as a
  function from the current busy flag, the request body and the outcomes
  of the two downstream streamed calls to the emitted event sequence and
  final state;
* the /status endpoint of the same file;
* LLMHelper.generateCommitMessage of src/utils/llmHelper.ts, with the
  Anthropic messages.create call abstracted as a fallible function;
* ClaudeCodeProvider.createQueryOptions of the provider source.

Theorems about these definitions settle the specification claims.
-/

namespace WorkflowApi

/-- The frame marker of the relay protocol: the six characters of the
string constant that server.ts tests with startsWith before stripping
six characters from the frame. -/
def dataMarker : List Char := ['d', 'a', 't', 'a', ':', ' ']

/-- One pass of the buffer-splitting step of streamSSE.  In the source,
the buffer is split on the double newline and the last segment is popped
back into the buffer; scanNN returns exactly that pair: the complete
segments in order, and the trailing remainder.  The split is the
leftmost, non-overlapping split on two consecutive newline characters,
as JavaScript String.split performs it. -/
def scanNN : List Char → List (List Char) × List Char
  | [] => ([], [])
  | [c] => ([], [c])
  | c1 :: c2 :: rest =>
    if c1 = '\n' ∧ c2 = '\n' then
      match scanNN rest with
      | (fs, r) => ([] :: fs, r)
    else
      match scanNN (c2 :: rest) with
      | ([], r) => ([], c1 :: r)
      | (f :: fs, r) => ((c1 :: f) :: fs, r)

/-- The full double-newline split, kept as an independent description of
what JavaScript buffer.split produces: every segment, the trailing
(possibly empty) one included. -/
def splitSeg : List Char → List (List Char)
  | [] => [[]]
  | [c] => [[c]]
  | c1 :: c2 :: rest =>
    if c1 = '\n' ∧ c2 = '\n' then
      [] :: splitSeg rest
    else
      match splitSeg (c2 :: rest) with
      | [] => [[c1]]
      | s :: ss => (c1 :: s) :: ss

/-- The per-frame loop of streamSSE over the complete segments of one
chunk arrival: a segment that starts with the marker has the marker
stripped; a successful parse of the remainder updates lastEventData and
is handed to onData; a failed parse is ignored; a segment without the
marker is skipped.  Returns the updated lastEventData and the payloads
handed to onData, in order. -/
def processFrames {J : Type} (parse : List Char → Option J) :
    List (List Char) → Option J → Option J × List (List Char)
  | [], last => (last, [])
  | msg :: rest, last =>
    if msg.take 6 = dataMarker then
      match parse (msg.drop 6) with
      | some d =>
        let p := processFrames parse rest (some d)
        (p.1, msg.drop 6 :: p.2)
      | none => processFrames parse rest last
    else processFrames parse rest last

/-- The mutable state of one streamSSE call: the reassembly buffer and
the last successfully parsed record. -/
structure RelayState (J : Type) where
  buffer : List Char
  lastEventData : Option J
deriving Repr, DecidableEq

/-- The data-event callback of streamSSE: append the chunk to the
buffer, split on the double newline, pop the last segment back into the
buffer, and run the per-frame loop on the complete segments. -/
def feedChunk {J : Type} (parse : List Char → Option J)
    (st : RelayState J) (chunk : List Char) : RelayState J × List (List Char) :=
  let s := scanNN (st.buffer ++ chunk)
  let p := processFrames parse s.1 st.lastEventData
  (⟨s.2, p.1⟩, p.2)

/-- Feeding a whole sequence of chunks, accumulating the onData
payloads in order. -/
def feedChunks {J : Type} (parse : List Char → Option J)
    (st : RelayState J) : List (List Char) → RelayState J × List (List Char)
  | [] => (st, [])
  | c :: cs =>
    let p1 := feedChunk parse st c
    let p2 := feedChunks parse p1.1 cs
    (p2.1, p1.2 ++ p2.2)

/-- A whole streamSSE call over a response delivered as the given chunk
sequence: start from an empty buffer and no last record, feed every
chunk, and on stream end resolve with lastEventData.  The first
component is the resolved value, the second the sequence of onData
payloads. -/
def streamSSE {J : Type} (parse : List Char → Option J)
    (chunks : List (List Char)) : Option J × List (List Char) :=
  let p := feedChunks parse ⟨[], none⟩ chunks
  (p.1.lastEventData, p.2)

/-- The payloads handed to onData across a frame list, described
without the stateful loop: the stripped bodies of exactly those frames
that carry the marker and whose body parses. -/
def markerPayloads {J : Type} (parse : List Char → Option J)
    (frames : List (List Char)) : List (List Char) :=
  frames.filterMap fun f =>
    if f.take 6 = dataMarker ∧ (parse (f.drop 6)).isSome then some (f.drop 6) else none

/-- The successfully parsed records of a frame list, described without
the stateful loop: the parses of the stripped bodies of the frames that
carry the marker, failures skipped. -/
def parsedRecords {J : Type} (parse : List Char → Option J)
    (frames : List (List Char)) : List J :=
  frames.filterMap fun f =>
    if f.take 6 = dataMarker then parse (f.drop 6) else none

/-- The character the UTF-8 decoder emits for an ill-formed byte
sequence. -/
def replacementChar : Char := Char.ofNat 0xFFFD

/-- The WHATWG UTF-8 decode with replacement, as Node applies it in
Buffer.toString: ASCII bytes pass through; well-formed two-, three- and
four-byte sequences (with the E0/ED/F0/F4 second-byte bounds, so
overlongs and surrogates are ill-formed) decode to their code point;
an ill-formed byte or a sequence truncated by the end of the buffer
decodes to the replacement character per maximal subpart, the offending
byte being reprocessed.  The fuel argument, instantiated with the byte
count, only bounds the recursion: every step consumes at least one
byte. -/
def utf8DecodeFuel : Nat → List Nat → List Char
  | 0, _ => []
  | _ + 1, [] => []
  | fuel + 1, b :: bs =>
    if b ≤ 0x7F then Char.ofNat b :: utf8DecodeFuel fuel bs
    else if 0xC2 ≤ b ∧ b ≤ 0xDF then
      match bs with
      | b2 :: bs2 =>
        if 0x80 ≤ b2 ∧ b2 ≤ 0xBF then
          Char.ofNat ((b % 0x20) * 0x40 + b2 % 0x40) :: utf8DecodeFuel fuel bs2
        else replacementChar :: utf8DecodeFuel fuel (b2 :: bs2)
      | [] => [replacementChar]
    else if 0xE0 ≤ b ∧ b ≤ 0xEF then
      match bs with
      | b2 :: bs2 =>
        if (if b = 0xE0 then 0xA0 else 0x80) ≤ b2
            ∧ b2 ≤ (if b = 0xED then 0x9F else 0xBF) then
          match bs2 with
          | b3 :: bs3 =>
            if 0x80 ≤ b3 ∧ b3 ≤ 0xBF then
              Char.ofNat ((b % 0x10) * 0x1000 + (b2 % 0x40) * 0x40 + b3 % 0x40)
                :: utf8DecodeFuel fuel bs3
            else replacementChar :: utf8DecodeFuel fuel (b3 :: bs3)
          | [] => [replacementChar]
        else replacementChar :: utf8DecodeFuel fuel (b2 :: bs2)
      | [] => [replacementChar]
    else if 0xF0 ≤ b ∧ b ≤ 0xF4 then
      match bs with
      | b2 :: bs2 =>
        if (if b = 0xF0 then 0x90 else 0x80) ≤ b2
            ∧ b2 ≤ (if b = 0xF4 then 0x8F else 0xBF) then
          match bs2 with
          | b3 :: bs3 =>
            if 0x80 ≤ b3 ∧ b3 ≤ 0xBF then
              match bs3 with
              | b4 :: bs4 =>
                if 0x80 ≤ b4 ∧ b4 ≤ 0xBF then
                  Char.ofNat ((b % 0x8) * 0x40000 + (b2 % 0x40) * 0x1000
                      + (b3 % 0x40) * 0x40 + b4 % 0x40)
                    :: utf8DecodeFuel fuel bs4
                else replacementChar :: utf8DecodeFuel fuel (b4 :: bs4)
              | [] => [replacementChar]
            else replacementChar :: utf8DecodeFuel fuel (b3 :: bs3)
          | [] => [replacementChar]
        else replacementChar :: utf8DecodeFuel fuel (b2 :: bs2)
      | [] => [replacementChar]
    else replacementChar :: utf8DecodeFuel fuel bs

/-- One Buffer.toString call of server.ts line 66: the chunk is decoded
as UTF-8 in isolation, with no state carried from the previous chunk,
so a multi-byte character cut by a chunk edge cannot be reassembled:
each fragment becomes a replacement character. -/
def utf8Decode (bytes : List Nat) : List Char :=
  utf8DecodeFuel bytes.length bytes

/-- The byte-level view of one streamSSE call: the response delivers
Buffer chunks, and the data handler appends chunk.toString() to the
string buffer — each chunk is decoded independently before the
reassembly of frames. -/
def streamSSEBytes {J : Type} (parse : List Char → Option J)
    (chunks : List (List Nat)) : Option J × List (List Char) :=
  streamSSE parse (chunks.map utf8Decode)

/-- The per-frame loop of streamSSE with its console output made
explicit: the second component collects every console entry the loop
writes.  The catch arm of the source contains only the comment about
ignoring parse errors and no statement, so the parse-failure arm
appends nothing to the console channel. -/
def processFramesConsole {J : Type} (parse : List Char → Option J) :
    List (List Char) → Option J → (Option J × List (List Char)) × List String
  | [], last => ((last, []), [])
  | msg :: rest, last =>
    if msg.take 6 = dataMarker then
      match parse (msg.drop 6) with
      | some d =>
        let p := processFramesConsole parse rest (some d)
        ((p.1.1, msg.drop 6 :: p.1.2), p.2)
      | none =>
        let p := processFramesConsole parse rest last
        (p.1, [] ++ p.2)
    else processFramesConsole parse rest last

/-- The process-wide readiness flag of server.ts, declared there as a
two-valued string. -/
inductive ServerStatus where
  | idle
  | busy
deriving Repr, DecidableEq

/-- The response of an Express handler that only calls res.json: the
HTTP status is the Express default 200 and the body reports the
flag. -/
structure StatusResponse where
  httpStatus : Nat
  status : ServerStatus
deriving Repr, DecidableEq

/-- The GET /status handler of server.ts: res.json with the current
flag.  No res.status call appears in the handler, so Express sends the
response with HTTP status 200 whatever the flag is. -/
def statusEndpoint (st : ServerStatus) : StatusResponse :=
  ⟨200, st⟩

/-- The body of a POST /api/workflow request.  The four fields read by
the handler; a missing field is none. -/
structure WorkflowRequest where
  prompt : Option String
  repoUrl : Option String
  branch : Option String
  directory : Option String
deriving Repr, DecidableEq

/-- JavaScript truthiness of a possibly missing string field: an absent
field and the empty string are falsy. -/
def truthy (o : Option String) : Bool :=
  match o with
  | some s => s ≠ ""
  | none => false

/-- What one downstream streamSSE call looks like from the handler:
the payloads its onData callback delivered, in order, and, when the
underlying request or response errored, the error message with which
the promise rejected (after those payloads). -/
structure StreamRun where
  events : List String
  failure : Option String
deriving Repr, DecidableEq

/-- The events the handler writes to its own SSE response, one
constructor per res.write site, carrying the fields the claims are
about. -/
inductive WEvent where
  | workflowStarted (step : Nat) (stepName : String)
  | message (text : String)
  | pullProgress (data : String)
  | stepComplete (step : Nat) (targetPath : String)
  | claudeData (data : String)
  | workflowComplete
  | workflowError (error : String)
deriving Repr, DecidableEq

/-- Whether an event is the success terminal of the handler. -/
def isWorkflowComplete : WEvent → Bool
  | WEvent.workflowComplete => true
  | _ => false

/-- Whether an event is the error terminal of the handler. -/
def isWorkflowError : WEvent → Bool
  | WEvent.workflowError _ => true
  | _ => false

/-- The observable outcome of one POST /api/workflow call: the HTTP
status (400 on validation failure, otherwise the 200 of the SSE
stream), the JSON error body of a validation failure, the events
written to the stream in order, the readiness flag after the call, and
the exit code the process schedules once the stream has ended (none
when the handler returns without running the pipeline). -/
structure HandlerResult where
  httpStatus : Nat
  validationError : Option String
  events : List WEvent
  finalStatus : ServerStatus
  exitCode : Option Nat
deriving Repr, DecidableEq

/-- The targetPath variable of the handler: starts empty, and each pull
progress payload whose parsed record carries a truthy targetPath field
overwrites it.  The extraction JSON.parse(data).targetPath is abstracted
as getTargetPath, which is none for an absent or falsy field (the data
string parsed successfully inside streamSSE before being handed to
onData). -/
def computeTargetPath (getTargetPath : String → Option String)
    (events : List String) : String :=
  events.foldl
    (fun tp d =>
      match getTargetPath d with
      | some p => p
      | none => tp)
    ""

/-- The POST /api/workflow handler of server.ts, as a function of the
current flag, the request body and the outcomes of the two downstream
streamed calls (the pull service, then the execute service).  Missing
prompt or repoUrl is rejected with 400 before anything else happens;
otherwise the flag is set to busy, the pipeline events are written, and
any downstream rejection is caught by the single try/catch, which
writes one workflow_error event, ends the stream and schedules process
exit 1; on success a workflow_complete event ends the stream and the
process schedules exit 0.  The flag is never reset to idle. -/
def handleWorkflow (getTargetPath : String → Option String)
    (st : ServerStatus) (req : WorkflowRequest)
    (pull exec : StreamRun) : HandlerResult :=
  if ¬(truthy req.prompt ∧ truthy req.repoUrl) then
    ⟨400, some "prompt and repoUrl are required", [], st, none⟩
  else
    let started1 := WEvent.workflowStarted 1 "pull_repository"
    let msg1 := WEvent.message ("Pulling repository: " ++ req.repoUrl.getD "")
    let pullEvents := pull.events.map WEvent.pullProgress
    match pull.failure with
    | some err =>
      ⟨200, none,
        [started1, msg1] ++ pullEvents ++ [WEvent.workflowError err],
        ServerStatus.busy, some 1⟩
    | none =>
      let tp := computeTargetPath getTargetPath pull.events
      let step1Done := WEvent.stepComplete 1 tp
      let started2 := WEvent.workflowStarted 2 "execute_claude_code"
      let msg2 := WEvent.message ("Executing Claude Code in workspace: " ++ tp)
      let execEvents := exec.events.map WEvent.claudeData
      match exec.failure with
      | some err =>
        ⟨200, none,
          [started1, msg1] ++ pullEvents ++ [step1Done, started2, msg2]
            ++ execEvents ++ [WEvent.workflowError err],
          ServerStatus.busy, some 1⟩
      | none =>
        ⟨200, none,
          [started1, msg1] ++ pullEvents ++ [step1Done, started2, msg2]
            ++ execEvents ++ [WEvent.workflowComplete],
          ServerStatus.busy, some 0⟩

end WorkflowApi

namespace LlmHelper

/-- One content block of an Anthropic messages.create response: its
type tag and its text. -/
structure ContentBlock where
  type : String
  text : String
deriving Repr, DecidableEq

/-- An Anthropic messages.create response: its list of content
blocks. -/
structure LLMResponse where
  content : List ContentBlock
deriving Repr, DecidableEq

/-- The fixed fallback commit message of llmHelper.ts. -/
def fallbackCommitMessage : String := "chore: auto-commit changes"

/-- The prompt generateCommitMessage builds: the fixed instructions,
the git status, and the diff truncated to its first 4000 units. -/
def buildCommitPrompt (gitStatus gitDiff : String) : String :=
  "Analyze the following git changes and generate a concise, conventional commit message. Follow these rules:\n- Use conventional commit format (e.g., \"feat:\", \"fix:\", \"refactor:\", \"docs:\", etc.)\n- Keep the summary line under 72 characters\n- Be specific about what changed\n- Only return the commit message, nothing else\n\nGit status:\n"
    ++ gitStatus
    ++ "\n\nGit diff:\n"
    ++ (gitDiff.take 4000)
    ++ "\n\nCommit message:"

/-- LLMHelper.generateCommitMessage, with the network call abstracted
as a fallible function from the prompt to a response.  The try/catch of
the source catches every failure: a rejected call, a response whose
first content block is missing (reading .type of undefined throws), and
the explicit throw on a non-text first block all fall through to the
fallback message; a text first block yields its trimmed text. -/
def generateCommitMessage (gitStatus gitDiff : String)
    (call : String → Except String LLMResponse) : String :=
  match call (buildCommitPrompt gitStatus gitDiff) with
  | Except.error _ => fallbackCommitMessage
  | Except.ok response =>
    match response.content.head? with
    | none => fallbackCommitMessage
    | some block =>
      if block.type = "text" then block.text.trim
      else fallbackCommitMessage

end LlmHelper

namespace ClaudeCodeProvider

/-- The provider option bag of a request, as read by
createQueryOptions: an optional model name and an optional
skipPermissions flag. -/
structure ProviderOptionBag where
  model : Option String
  skipPermissions : Option Bool
deriving Repr, DecidableEq

/-- The options argument of createQueryOptions: an optional
resume-session identifier and the optional provider option bag (an
absent bag defaults to the empty object). -/
structure ProviderOptions where
  resumeSessionId : Option String
  providerOptions : Option ProviderOptionBag
deriving Repr, DecidableEq

/-- The query options createQueryOptions builds for the Claude Code
SDK. -/
structure Options where
  model : String
  cwd : String
  systemPrompt : String
  allowDangerouslySkipPermissions : Bool
  permissionMode : String
  resume : Option String
deriving Repr, DecidableEq

/-- ClaudeCodeProvider.createQueryOptions: skipPermissions defaults to
true when unset (the nullish coalescing of the source); the model falls
back to the provider default when absent or empty (JavaScript or); the
permission mode is bypassPermissions exactly when skipPermissions
holds; resume is set only for a truthy resumeSessionId. -/
def createQueryOptions (workspace thisModel : String)
    (options : ProviderOptions) : Options :=
  let bag := options.providerOptions.getD ⟨none, none⟩
  let skipPermissions := bag.skipPermissions.getD true
  let base : Options :=
    { model :=
        match bag.model with
        | some m => if m = "" then thisModel else m
        | none => thisModel
      cwd := workspace
      systemPrompt :=
        "You are Claude Code, running in a containerized environment. The working directory is "
          ++ workspace ++ "."
      allowDangerouslySkipPermissions := skipPermissions
      permissionMode := if skipPermissions then "bypassPermissions" else "default"
      resume := none }
  match options.resumeSessionId with
  | some sid => if sid = "" then base else { base with resume := some sid }
  | none => base

end ClaudeCodeProvider

namespace WorkflowApi

/-- A buffer in which the split found no complete segment is returned
unchanged. -/
theorem scanNN_nil_frames :
    ∀ z : List Char, (scanNN z).1 = [] → (scanNN z).2 = z := by
  intro z
  induction z using scanNN.induct with
  | case1 => intro _; rfl
  | case2 c => intro _; rfl
  | case3 c1 c2 rest h fs r hrec ih =>
    intro hnil
    simp [scanNN, h.1, h.2, hrec] at hnil
  | case4 c1 c2 rest h r hrec ih =>
    intro _
    have hr : r = c2 :: rest := by
      have h2 := ih
      rw [hrec] at h2
      exact h2 rfl
    simp [scanNN, if_neg h, hrec, hr]
  | case5 c1 c2 rest h f fs r hrec ih =>
    intro hnil
    simp [scanNN, if_neg h, hrec] at hnil

/-- The remainder the split keeps in the buffer contains no complete
segment: splitting it again finds nothing. -/
theorem scanNN_rest_closed :
    ∀ z : List Char, scanNN ((scanNN z).2) = ([], (scanNN z).2) := by
  intro z
  induction z using scanNN.induct with
  | case1 => rfl
  | case2 c => rfl
  | case3 c1 c2 rest h fs r hrec ih =>
    rw [hrec] at ih
    simp [scanNN, h.1, h.2, hrec]
    exact ih
  | case4 c1 c2 rest h r hrec ih =>
    have hr : r = c2 :: rest := by
      have h2 := scanNN_nil_frames (c2 :: rest)
      rw [hrec] at h2
      exact h2 rfl
    simp [scanNN, if_neg h, hrec, hr]
  | case5 c1 c2 rest h f fs r hrec ih =>
    rw [hrec] at ih
    simp [scanNN, if_neg h, hrec]
    exact ih

/-- Splitting a concatenation: the segments of x ++ y are the complete
segments of x followed by the segments of the remainder of x prepended
to y.  This is the reason the chunk reassembly of streamSSE is
insensitive to where the stream is cut. -/
theorem scanNN_append :
    ∀ x y : List Char,
      scanNN (x ++ y) =
        ((scanNN x).1 ++ (scanNN ((scanNN x).2 ++ y)).1,
          (scanNN ((scanNN x).2 ++ y)).2) := by
  intro x y
  induction x using scanNN.induct with
  | case1 => simp [scanNN]
  | case2 c => simp [scanNN]
  | case3 c1 c2 rest h fs r hrec ih =>
    rw [hrec] at ih
    simp only [List.cons_append]
    simp [scanNN, h.1, h.2, hrec, ih]
  | case4 c1 c2 rest h r hrec ih =>
    have hr : r = c2 :: rest := by
      have h2 := scanNN_nil_frames (c2 :: rest)
      rw [hrec] at h2
      exact h2 rfl
    have hwhole : scanNN (c1 :: c2 :: rest) = ([], c1 :: c2 :: rest) := by
      simp [scanNN, if_neg h, hrec, hr]
    rw [hwhole]
    simp
  | case5 c1 c2 rest h f fs r hrec ih =>
    rw [hrec] at ih
    simp only [List.cons_append] at ih ⊢
    simp [scanNN, if_neg h, hrec, ih]

/-- The per-frame loop over a concatenation of frame lists runs the
first list, threads the resulting lastEventData into the second, and
concatenates the payloads. -/
theorem processFrames_append {J : Type} (parse : List Char → Option J)
    (a b : List (List Char)) (l : Option J) :
    processFrames parse (a ++ b) l =
      ((processFrames parse b (processFrames parse a l).1).1,
        (processFrames parse a l).2
          ++ (processFrames parse b (processFrames parse a l).1).2) := by
  induction a generalizing l with
  | nil => simp [processFrames]
  | cons msg rest ih =>
    by_cases hm : msg.take 6 = dataMarker
    · cases hp : parse (msg.drop 6) with
      | none => simp [processFrames, hm, hp, ih]
      | some d => simp [processFrames, hm, hp, ih]
    · simp [processFrames, hm, ih]

/-- The last element of a nonempty list, as an option, is the last of
the tail falling back to the head. -/
theorem getLast?_cons_or {A : Type} (a : A) (xs : List A) :
    (a :: xs).getLast? = xs.getLast?.or (some a) := by
  cases xs with
  | nil => rfl
  | cons b ys =>
    rw [List.getLast?_cons_cons]
    obtain ⟨y, hy⟩ := Option.isSome_iff_exists.mp
      (List.getLast?_isSome.mpr (by simp) : (b :: ys).getLast?.isSome)
    rw [hy]
    rfl

/-- Closed form of the per-frame loop: the final lastEventData is the
last successfully parsed record, falling back to the incoming one, and
the payloads are exactly the marker payloads. -/
theorem processFrames_closed {J : Type} (parse : List Char → Option J)
    (frames : List (List Char)) (l : Option J) :
    processFrames parse frames l =
      ((parsedRecords parse frames).getLast?.or l,
        markerPayloads parse frames) := by
  induction frames generalizing l with
  | nil => rfl
  | cons msg rest ih =>
    by_cases hm : msg.take 6 = dataMarker
    · cases hp : parse (msg.drop 6) with
      | none =>
        have h1 : processFrames parse (msg :: rest) l = processFrames parse rest l := by
          simp [processFrames, hm, hp]
        have h2 : parsedRecords parse (msg :: rest) = parsedRecords parse rest := by
          simp [parsedRecords, List.filterMap_cons, hm, hp]
        have h3 : markerPayloads parse (msg :: rest) = markerPayloads parse rest := by
          simp [markerPayloads, List.filterMap_cons, hm, hp]
        rw [h1, h2, h3, ih]
      | some d =>
        have h1 : processFrames parse (msg :: rest) l =
            ((processFrames parse rest (some d)).1,
              msg.drop 6 :: (processFrames parse rest (some d)).2) := by
          simp [processFrames, hm, hp]
        have h2 : parsedRecords parse (msg :: rest) = d :: parsedRecords parse rest := by
          simp [parsedRecords, List.filterMap_cons, hm, hp]
        have h3 : markerPayloads parse (msg :: rest) =
            msg.drop 6 :: markerPayloads parse rest := by
          simp [markerPayloads, List.filterMap_cons, hm, hp]
        rw [h1, ih, h2, h3, getLast?_cons_or]
        cases hx : (parsedRecords parse rest).getLast? with
        | none => rfl
        | some y => rfl
    · have h1 : processFrames parse (msg :: rest) l = processFrames parse rest l := by
        simp [processFrames, hm]
      have h2 : parsedRecords parse (msg :: rest) = parsedRecords parse rest := by
        simp [parsedRecords, List.filterMap_cons, hm]
      have h3 : markerPayloads parse (msg :: rest) = markerPayloads parse rest := by
        simp [markerPayloads, List.filterMap_cons, hm]
      rw [h1, h2, h3, ih]

/-- Feeding the concatenation of two chunks equals feeding them one
after the other: the reassembly buffer carries exactly the missing
suffix across the cut. -/
theorem feedChunk_append {J : Type} (parse : List Char → Option J)
    (st : RelayState J) (a b : List Char) :
    feedChunk parse st (a ++ b) =
      ((feedChunk parse (feedChunk parse st a).1 b).1,
        (feedChunk parse st a).2 ++ (feedChunk parse (feedChunk parse st a).1 b).2) := by
  simp only [feedChunk]
  rw [← List.append_assoc, scanNN_append (st.buffer ++ a) b, processFrames_append]

/-- Feeding a list of chunks from a state whose buffer holds no
complete segment equals feeding their concatenation as one chunk. -/
theorem feedChunks_eq_join {J : Type} (parse : List Char → Option J)
    (cs : List (List Char)) :
    ∀ st : RelayState J, scanNN st.buffer = ([], st.buffer) →
      feedChunks parse st cs = feedChunk parse st cs.flatten := by
  induction cs with
  | nil =>
    intro st h
    simp [feedChunks, feedChunk, h, processFrames]
  | cons c cs ih =>
    intro st h
    have hrest : scanNN ((feedChunk parse st c).1.buffer) =
        ([], (feedChunk parse st c).1.buffer) := by
      simp only [feedChunk]
      exact scanNN_rest_closed (st.buffer ++ c)
    simp only [feedChunks, List.flatten_cons]
    rw [ih (feedChunk parse st c).1 hrest, feedChunk_append]

/-- The split with the popped remainder, against the plain split: the
complete segments are all but the last segment, and the remainder is
the last segment. -/
theorem splitSeg_eq_scanNN :
    ∀ z : List Char, splitSeg z = (scanNN z).1 ++ [(scanNN z).2] := by
  intro z
  induction z using scanNN.induct with
  | case1 => rfl
  | case2 c => rfl
  | case3 c1 c2 rest h fs r hrec ih =>
    simp [splitSeg, scanNN, h.1, h.2, hrec] at ih ⊢
    exact ih
  | case4 c1 c2 rest h r hrec ih =>
    rw [hrec] at ih
    simp only at ih
    simp [splitSeg, scanNN, if_neg h, hrec, ih]
  | case5 c1 c2 rest h f fs r hrec ih =>
    rw [hrec] at ih
    simp only at ih
    simp [splitSeg, scanNN, if_neg h, hrec, ih]

/-- Claim C1, as the code has it: the reassembly of streamSSE is
chunk-boundary independent at the decoded character-stream level — for
every character stream and every way of splitting it into chunk
strings, streamSSE yields the identical sequence of parsed frames
handed to onData, and the same final result value, as for the unsplit
stream.  At the raw byte level the property fails, because each Buffer
chunk is UTF-8-decoded in isolation before entering the buffer: a
boundary inside a multi-byte character corrupts that character (see the
accompanying byte-level counterexample). -/
theorem sse_chunk_boundary_independent {J : Type}
    (parse : List Char → Option J) (chunks : List (List Char)) :
    streamSSE parse chunks = streamSSE parse [chunks.flatten] := by
  simp only [streamSSE]
  rw [feedChunks_eq_join parse chunks ⟨[], none⟩ rfl,
    feedChunks_eq_join parse [chunks.flatten] ⟨[], none⟩ rfl]
  simp

/-- Counterexample to claim C1 as stated: the bytes of the frame
"data: \xC3\xA9\n\n" (body one two-byte character) split so that the
boundary falls between 0xC3 and 0xA9.  Each fragment decodes to a
replacement character, so the split stream parses to a different frame
body, and a different final result, than the unsplit stream: the
program is not byte-level chunk-boundary independent. -/
theorem sse_byte_split_corrupts_frame :
    streamSSEBytes (fun s => some (String.mk s))
        [[100, 97, 116, 97, 58, 32, 195], [169, 10, 10]]
      ≠ streamSSEBytes (fun s => some (String.mk s))
        [[100, 97, 116, 97, 58, 32, 195, 169, 10, 10]] := by
  decide

/-- A frame that carries the marker but whose body fails to parse is a
no-op of the per-frame loop: the loop processes all other frames
exactly as if the malformed frame were absent. -/
theorem processFrames_malformed_skip {J : Type}
    (parse : List Char → Option J) (pre post : List (List Char))
    (bad : List Char) (l : Option J)
    (hmark : bad.take 6 = dataMarker)
    (hfail : parse (bad.drop 6) = none) :
    processFrames parse (pre ++ bad :: post) l =
      processFrames parse (pre ++ post) l := by
  rw [processFrames_append, processFrames_append]
  have hstep : ∀ l2 : Option J,
      processFrames parse (bad :: post) l2 = processFrames parse post l2 := by
    intro l2
    simp [processFrames, hmark, hfail]
  rw [hstep]

/-- The per-frame loop never writes to the console: its explicit
console channel is empty on every input, and its result coincides with
processFrames. -/
theorem processFramesConsole_spec {J : Type} (parse : List Char → Option J)
    (frames : List (List Char)) (l : Option J) :
    processFramesConsole parse frames l = (processFrames parse frames l, []) := by
  induction frames generalizing l with
  | nil => rfl
  | cons msg rest ih =>
    by_cases hm : msg.take 6 = dataMarker
    · cases hp : parse (msg.drop 6) with
      | none => simp [processFramesConsole, processFrames, hm, hp, ih]
      | some d => simp [processFramesConsole, processFrames, hm, hp, ih]
    · simp [processFramesConsole, processFrames, hm, ih]

/-- Claim C4, as the code has it: a complete frame whose body fails to
parse is dropped silently — the loop yields nothing for it, writes
nothing to the console (the catch arm is empty), never raises (the
loop is a total function), and processes all subsequent frames exactly
as if the malformed frame were absent. -/
theorem sse_malformed_frame_dropped_silently {J : Type}
    (parse : List Char → Option J) (pre post : List (List Char))
    (bad : List Char) (l : Option J)
    (hmark : bad.take 6 = dataMarker)
    (hfail : parse (bad.drop 6) = none) :
    processFramesConsole parse (pre ++ bad :: post) l =
      (processFrames parse (pre ++ post) l, []) := by
  rw [processFramesConsole_spec,
    processFrames_malformed_skip parse pre post bad l hmark hfail]

/-- Witness for claim C4 at a concrete malformed frame between two
well-formed neighbours, with a parser that rejects everything. -/
theorem sse_malformed_frame_dropped_silently_witness :
    (dataMarker.take 6 = dataMarker
        ∧ (fun (_ : List Char) => (none : Option Nat)) (dataMarker.drop 6) = none)
      ∧ processFramesConsole (fun (_ : List Char) => (none : Option Nat))
          ([['x']] ++ dataMarker :: [['y']]) none
        = (processFrames (fun (_ : List Char) => (none : Option Nat))
            ([['x']] ++ [['y']]) none, []) :=
  ⟨⟨rfl, rfl⟩,
    sse_malformed_frame_dropped_silently (fun _ => none) [['x']] [['y']]
      dataMarker none rfl rfl⟩

/-- Counterexample to claim C4 as stated: processing the malformed
frame "data: bad" with a parser that rejects it yields no onData
payload — the frame is dropped — but the console channel is empty, so
the frame is not logged: the catch block of streamSSE ignores the
parse error without logging it. -/
theorem sse_malformed_frame_not_logged :
    (processFramesConsole (fun (_ : List Char) => (none : Option Nat))
        [dataMarker ++ ['b', 'a', 'd']] none).2 = []
      ∧ (processFramesConsole (fun (_ : List Char) => (none : Option Nat))
          [dataMarker ++ ['b', 'a', 'd']] none).1.2 = [] := by
  decide

/-- Claim C5: one chunk arrival appends the chunk to the buffer, splits
on the double newline, treats every segment but the last as a complete
frame and keeps the last segment as the new buffer; the frames carrying
the marker have it stripped and parsed, and segments without the marker
are ignored.  Stated against the plain split and the closed-form frame
descriptions rather than the stateful loop. -/
theorem sse_chunk_step_spec {J : Type} (parse : List Char → Option J)
    (st : RelayState J) (chunk : List Char) :
    (splitSeg (st.buffer ++ chunk)).getLast?
        = some ((feedChunk parse st chunk).1.buffer)
      ∧ (feedChunk parse st chunk).1.lastEventData
        = (parsedRecords parse
            ((splitSeg (st.buffer ++ chunk)).dropLast)).getLast?.or st.lastEventData
      ∧ (feedChunk parse st chunk).2
        = markerPayloads parse ((splitSeg (st.buffer ++ chunk)).dropLast) := by
  rw [splitSeg_eq_scanNN]
  simp only [List.getLast?_concat, List.dropLast_concat]
  simp [feedChunk, processFrames_closed]

/-- Claim C6: when the stream ends, streamSSE resolves with the last
record that was successfully parsed from a marker frame during the
stream, and with none when no frame parsed. -/
theorem sse_result_last_parsed {J : Type} (parse : List Char → Option J)
    (chunks : List (List Char)) :
    (streamSSE parse chunks).1 =
      (parsedRecords parse ((splitSeg chunks.flatten).dropLast)).getLast? := by
  rw [splitSeg_eq_scanNN, List.dropLast_concat]
  simp only [streamSSE]
  rw [feedChunks_eq_join parse chunks ⟨[], none⟩ rfl]
  simp [feedChunk, processFrames_closed, Option.or_none]

/-- Claim C7, as the code has it: the GET /status probe answers with
HTTP status 200 both when the worker is idle and when it is busy; only
the JSON body distinguishes the two.  The handler never calls
res.status, so the Express default 200 is always sent. -/
theorem status_endpoint_always_200 (st : ServerStatus) :
    (statusEndpoint st).httpStatus = 200 ∧ (statusEndpoint st).status = st :=
  ⟨rfl, rfl⟩

/-- Counterexample to claim C7 as stated: with the worker busy, the
probe answers 200, not 429. -/
theorem status_endpoint_busy_not_429 :
    (statusEndpoint ServerStatus.busy).httpStatus ≠ 429
      ∧ (statusEndpoint ServerStatus.busy).httpStatus = 200 := by
  constructor
  · intro h
    simp [statusEndpoint] at h
  · rfl

/-- Claim C9: a request missing the instruction text or the repository
URL (absent or empty, the falsy cases) is rejected with HTTP 400 and
the fixed validation error before anything happens: no events are
written, the busy flag keeps its previous value, and no process exit is
scheduled. -/
theorem workflow_validation_rejected (g : String → Option String)
    (st : ServerStatus) (req : WorkflowRequest) (pull exec : StreamRun)
    (h : ¬(truthy req.prompt = true ∧ truthy req.repoUrl = true)) :
    handleWorkflow g st req pull exec =
      ⟨400, some "prompt and repoUrl are required", [], st, none⟩ := by
  simp only [handleWorkflow]
  rw [if_pos h]

/-- Witness for claim C9: a request with no prompt, while idle. -/
theorem workflow_validation_rejected_witness :
    ¬(truthy (none : Option String) = true ∧ truthy (some "u") = true)
      ∧ handleWorkflow (fun _ => none) ServerStatus.idle
          ⟨none, some "u", none, none⟩ ⟨[], none⟩ ⟨[], none⟩
        = ⟨400, some "prompt and repoUrl are required", [], ServerStatus.idle, none⟩ :=
  ⟨by decide,
    workflow_validation_rejected (fun _ => none) ServerStatus.idle
      ⟨none, some "u", none, none⟩ ⟨[], none⟩ ⟨[], none⟩ (by decide)⟩

/-- Claim C2, as the code has it: the handler never consults the busy
flag.  A valid submission is accepted, streamed and marked busy whatever
the current flag value is; no capacity rejection exists in this
endpoint (single-job exclusivity rests on the process exiting after
each job). -/
theorem workflow_accepts_regardless_of_flag (g : String → Option String)
    (st : ServerStatus) (req : WorkflowRequest) (pull exec : StreamRun)
    (hp : truthy req.prompt = true) (hr : truthy req.repoUrl = true) :
    (handleWorkflow g st req pull exec).httpStatus = 200
      ∧ (handleWorkflow g st req pull exec).finalStatus = ServerStatus.busy
      ∧ (handleWorkflow g st req pull exec).validationError = none := by
  simp only [handleWorkflow, hp, hr]
  cases hpf : pull.failure with
  | some err => simp
  | none =>
    cases hef : exec.failure with
    | some err => simp
    | none => simp

/-- Witness for claim C2: a valid request accepted while already
busy. -/
theorem workflow_accepts_regardless_of_flag_witness :
    (truthy (some "p") = true ∧ truthy (some "u") = true)
      ∧ (handleWorkflow (fun _ => none) ServerStatus.busy
          ⟨some "p", some "u", none, none⟩ ⟨[], none⟩ ⟨[], none⟩).httpStatus = 200 :=
  ⟨by decide,
    (workflow_accepts_regardless_of_flag (fun _ => none) ServerStatus.busy
      ⟨some "p", some "u", none, none⟩ ⟨[], none⟩ ⟨[], none⟩ (by decide) (by decide)).1⟩

/-- Counterexample to claim C2 as stated: a valid submission arriving
while the flag is busy is not rejected with a capacity signal; the
pipeline runs and events are streamed. -/
theorem workflow_busy_submission_accepted :
    (handleWorkflow (fun _ => none) ServerStatus.busy
        ⟨some "p", some "u", none, none⟩ ⟨[], none⟩ ⟨[], none⟩).httpStatus ≠ 429
      ∧ (handleWorkflow (fun _ => none) ServerStatus.busy
          ⟨some "p", some "u", none, none⟩ ⟨[], none⟩ ⟨[], none⟩).events ≠ [] := by
  decide

/-- Claim C3, as the code has it: a fatal error of either downstream
stage is caught by the single try/catch, which writes exactly one
terminal error event of type workflow_error carrying the error text, as
the very last event of the stream, and schedules process exit 1; when
the pull fails no second-step event is written at all. -/
theorem workflow_fatal_error_terminal (g : String → Option String)
    (st : ServerStatus) (req : WorkflowRequest) (pull exec : StreamRun)
    (err : String)
    (hp : truthy req.prompt = true) (hr : truthy req.repoUrl = true) :
    (pull.failure = some err →
        (handleWorkflow g st req pull exec).events
            = [WEvent.workflowStarted 1 "pull_repository",
                WEvent.message ("Pulling repository: " ++ req.repoUrl.getD "")]
              ++ pull.events.map WEvent.pullProgress
              ++ [WEvent.workflowError err]
          ∧ (handleWorkflow g st req pull exec).events.countP isWorkflowError = 1
          ∧ (handleWorkflow g st req pull exec).events.countP isWorkflowComplete = 0
          ∧ (handleWorkflow g st req pull exec).exitCode = some 1)
      ∧ (pull.failure = none → exec.failure = some err →
          (handleWorkflow g st req pull exec).events
              = [WEvent.workflowStarted 1 "pull_repository",
                  WEvent.message ("Pulling repository: " ++ req.repoUrl.getD "")]
                ++ pull.events.map WEvent.pullProgress
                ++ [WEvent.stepComplete 1 (computeTargetPath g pull.events),
                    WEvent.workflowStarted 2 "execute_claude_code",
                    WEvent.message ("Executing Claude Code in workspace: "
                      ++ computeTargetPath g pull.events)]
                ++ exec.events.map WEvent.claudeData
                ++ [WEvent.workflowError err]
            ∧ (handleWorkflow g st req pull exec).events.countP isWorkflowError = 1
            ∧ (handleWorkflow g st req pull exec).events.countP isWorkflowComplete = 0
            ∧ (handleWorkflow g st req pull exec).exitCode = some 1) := by
  constructor
  · intro hpf
    simp only [handleWorkflow, hp, hr, hpf]
    refine ⟨by simp, ?_, ?_, by simp⟩
    · simp [List.countP_cons, List.countP_append, List.countP_map, isWorkflowError,
        List.countP_eq_zero, Function.comp, List.countP_false]
    · simp [List.countP_cons, List.countP_append, List.countP_map, isWorkflowComplete,
        List.countP_eq_zero, Function.comp, List.countP_false]
  · intro hpf hef
    have h1 : List.countP (isWorkflowError ∘ WEvent.pullProgress) pull.events = 0 := by
      refine List.countP_eq_zero.mpr ?_
      intro a _
      simp [Function.comp, isWorkflowError]
    have h2 : List.countP (isWorkflowError ∘ WEvent.claudeData) exec.events = 0 := by
      refine List.countP_eq_zero.mpr ?_
      intro a _
      simp [Function.comp, isWorkflowError]
    simp only [handleWorkflow, hp, hr, hpf, hef]
    refine ⟨by simp, ?_, ?_, by simp⟩
    · simp [List.countP_cons, List.countP_append, List.countP_map, isWorkflowError,
        h1, h2]
    · simp [List.countP_cons, List.countP_append, List.countP_map, isWorkflowComplete,
        List.countP_eq_zero, Function.comp, List.countP_false]

/-- Witness for claim C3: a concrete failing pull while idle. -/
theorem workflow_fatal_error_terminal_witness :
    (truthy (some "p") = true ∧ truthy (some "u") = true
        ∧ (⟨["e1"], some "clone failed"⟩ : StreamRun).failure = some "clone failed")
      ∧ (handleWorkflow (fun _ => none) ServerStatus.idle
          ⟨some "p", some "u", none, none⟩
          ⟨["e1"], some "clone failed"⟩ ⟨[], none⟩).events
        = [WEvent.workflowStarted 1 "pull_repository",
            WEvent.message ("Pulling repository: " ++ (some "u").getD "")]
          ++ (["e1"] : List String).map WEvent.pullProgress
          ++ [WEvent.workflowError "clone failed"] :=
  ⟨⟨by decide, by decide, rfl⟩,
    ((workflow_fatal_error_terminal (fun _ => none) ServerStatus.idle
      ⟨some "p", some "u", none, none⟩
      ⟨["e1"], some "clone failed"⟩ ⟨[], none⟩ "clone failed"
      (by decide) (by decide)).1 rfl).1⟩

/-- Counterexample to claim C3 as stated: on a fatal pull error no
event of the completion type is emitted at all, so no terminal
completed event carries the error text; the terminal event is of the
distinct workflow_error type. -/
theorem workflow_fatal_error_not_completed_event :
    (handleWorkflow (fun _ => none) ServerStatus.idle
        ⟨some "p", some "u", none, none⟩
        ⟨[], some "clone failed"⟩ ⟨[], none⟩).events.countP isWorkflowComplete = 0
      ∧ (handleWorkflow (fun _ => none) ServerStatus.idle
          ⟨some "p", some "u", none, none⟩
          ⟨[], some "clone failed"⟩ ⟨[], none⟩).events.getLast?
        = some (WEvent.workflowError "clone failed") := by
  decide

end WorkflowApi

namespace LlmHelper

/-- Claim C8: whenever the short-text generation call fails, whatever
the error (a timeout included), generateCommitMessage returns the
literal fallback string instead of raising; being a total function it
returns some string for every input, so message generation never blocks
or aborts the commit. -/
theorem commit_message_fallback_on_error (gitStatus gitDiff : String)
    (call : String → Except String LLMResponse) (e : String)
    (h : call (buildCommitPrompt gitStatus gitDiff) = Except.error e) :
    generateCommitMessage gitStatus gitDiff call = "chore: auto-commit changes" := by
  simp [generateCommitMessage, h, fallbackCommitMessage]

/-- Witness for claim C8: a call that times out. -/
theorem commit_message_fallback_on_error_witness :
    ((fun _ : String => Except.error "Request timed out")
        (buildCommitPrompt "M file.ts" "diff")
      = (Except.error "Request timed out" : Except String LLMResponse))
      ∧ generateCommitMessage "M file.ts" "diff"
          (fun _ => Except.error "Request timed out")
        = "chore: auto-commit changes" :=
  ⟨rfl,
    commit_message_fallback_on_error "M file.ts" "diff"
      (fun _ => Except.error "Request timed out") "Request timed out" rfl⟩

end LlmHelper

namespace ClaudeCodeProvider

/-- The permission fields of the built query options do not depend on
the resume branch: they are the skipPermissions default spelled out. -/
theorem createQueryOptions_permission_fields (w m : String) (o : ProviderOptions) :
    (createQueryOptions w m o).permissionMode
        = (if (o.providerOptions.getD ⟨none, none⟩).skipPermissions.getD true
            then "bypassPermissions" else "default")
      ∧ (createQueryOptions w m o).allowDangerouslySkipPermissions
        = (o.providerOptions.getD ⟨none, none⟩).skipPermissions.getD true := by
  cases hrs : o.resumeSessionId with
  | none => simp [createQueryOptions, hrs]
  | some sid =>
    by_cases hs : sid = "" <;> simp [createQueryOptions, hrs, hs]

/-- Claim C10: when the caller leaves skipPermissions unset the
provider defaults it to true, so the query options carry permission
mode bypassPermissions with allowDangerouslySkipPermissions enabled;
the permission-enforcing default mode appears exactly when
skipPermissions is explicitly false. -/
theorem query_options_skip_permissions_default (w m : String)
    (o : ProviderOptions) :
    ((o.providerOptions.getD ⟨none, none⟩).skipPermissions = none →
        (createQueryOptions w m o).permissionMode = "bypassPermissions"
          ∧ (createQueryOptions w m o).allowDangerouslySkipPermissions = true)
      ∧ ((createQueryOptions w m o).permissionMode = "default"
          ↔ (o.providerOptions.getD ⟨none, none⟩).skipPermissions = some false) := by
  obtain ⟨hpm, hallow⟩ := createQueryOptions_permission_fields w m o
  constructor
  · intro hnone
    rw [hpm, hallow, hnone]
    exact ⟨rfl, rfl⟩
  · rw [hpm]
    cases hsp : (o.providerOptions.getD ⟨none, none⟩).skipPermissions with
    | none => simp
    | some b => cases b <;> simp

/-- Witness for claim C10: a request with no provider option bag at
all. -/
theorem query_options_skip_permissions_default_witness :
    (((⟨none, none⟩ : ProviderOptions).providerOptions.getD
        ⟨none, none⟩).skipPermissions = none)
      ∧ (createQueryOptions "/workspace" "claude-sonnet-4-5-20250929"
          ⟨none, none⟩).permissionMode = "bypassPermissions" :=
  ⟨rfl,
    ((query_options_skip_permissions_default "/workspace"
      "claude-sonnet-4-5-20250929" ⟨none, none⟩).1 rfl).1⟩

end ClaudeCodeProvider
